import Mathlib

/-!
Verification development for the substance document model
(document graph, transaction/simulation engine, and the
co-transformation engine for range-anchored markers).

The JavaScript sources are embedded shallowly: the document is a list
of typed records, ranges are pairs of integers, operations are
explicit inductive values, exceptions are `Except`, and the JS
truthiness used by the original code is spelled out where it matters.
-/

/-- A range-anchored marker node: `id`, `type`, `path` (node id plus
property name) and `range` as stored by the document graph. -/
structure Ann where
  id : String
  type : String
  path : List String
  range : Int × Int
deriving DecidableEq

/-- Embeds `_delete` of `annotator.js`: `document.delete(annotation.id)`
removes the node with that id from the graph. -/
def deleteAnn (doc : List Ann) (a : Ann) : List Ann :=
  doc.filter (fun x => x.id != a.id)

/-- Embeds `_update` of `annotator.js`: a `Set([id, "range"], old, new)`
operation replacing the range of the node with the given id. -/
def setAnnRange (doc : List Ann) (a : Ann) (r : Int × Int) : List Ann :=
  doc.map (fun x => if x.id == a.id then { x with range := r } else x)

/-- Embeds `_create` of `annotator.js`: creates a fresh marker node with
the given path, type and range; the uuid is passed in explicitly. -/
def createAnn (doc : List Ann) (p : List String) (t : String) (r : Int × Int)
    (freshId : String) : List Ann :=
  doc ++ [⟨freshId, t, p, r⟩]

/-- The `split` list of `Annotator.defaultBehavior`. -/
def defaultSplit : List String := ["emphasis", "strong"]

/-- Embeds `isSplittable` of `annotator.js`: `split.indexOf(type) >= 0`. -/
def isSplittable (split : List String) (t : String) : Bool :=
  split.contains t

/-- Embeds `_truncate` of `annotator.js` (lines 150-186): the four-way
case split on the marker range `[s1,e1]` against the action range
`[s2,e2]`. -/
def truncateAnn (split : List String) (doc : List Ann) (a : Ann)
    (r : Int × Int) (freshId : String) : List Ann :=
  let s1 := a.range.1
  let s2 := r.1
  let e1 := a.range.2
  let e2 := r.2
  if s1 ≥ s2 ∧ e1 ≤ e2 then
    deleteAnn doc a
  else if s1 ≥ s2 ∧ e1 > e2 then
    setAnnRange doc a (e2, e1)
  else if s1 < s2 ∧ e1 ≤ e2 then
    setAnnRange doc a (s1, s2)
  else if isSplittable split a.type then
    createAnn (setAnnRange doc a (s1, s2)) a.path a.type (e2, e1) freshId
  else
    deleteAnn doc a

/-- The truncation behaviour exactly as the specification words it:
fully covered deletes; head overlap updates to `[e2,e1]`; tail overlap
updates to `[s1,s2]`; middle overlap splits (for splittable types) into
`[s1,s2]` plus a fresh marker over `[e2,e1]`, otherwise deletes. -/
def truncateSpecModel (split : List String) (doc : List Ann) (a : Ann)
    (r : Int × Int) (freshId : String) : List Ann :=
  let s1 := a.range.1
  let e1 := a.range.2
  let s2 := r.1
  let e2 := r.2
  if s1 ≥ s2 ∧ e1 ≤ e2 then
    deleteAnn doc a
  else if s1 ≥ s2 ∧ e1 > e2 then
    setAnnRange doc a (e2, e1)
  else if s1 < s2 ∧ e1 ≤ e2 then
    setAnnRange doc a (s1, s2)
  else if isSplittable split a.type then
    createAnn (setAnnRange doc a (s1, s2)) a.path a.type (e2, e1) freshId
  else
    deleteAnn doc a

/-- JS truthiness of the optional range end used by the filter:
`undefined`/`null` and `0` are falsy, every other number truthy. -/
def jsTruthyEnd : Option Int → Bool
  | none => false
  | some v => v != 0

/-- Embeds the overlap test inside `_filterByNodeAndRange` of
`annotator.js` (lines 110-140): `overlap = aEnd >= sStart` and then
`if (sEnd) overlap &= aStart <= sEnd`. -/
def overlapTest (aStart aEnd sStart : Int) (sEnd : Option Int) : Bool :=
  let overlap := decide (aEnd ≥ sStart)
  match sEnd with
  | some v => if v != 0 then overlap && decide (aStart ≤ v) else overlap
  | none => overlap

/-- Embeds `_filterByNodeAndRange` of `annotator.js` restricted to the
marker list already looked up from the index: with a range given the
markers are filtered by `overlapTest`, otherwise all are returned. -/
def filterByNodeAndRange (anns : List Ann) (range : Option (Int × Option Int)) :
    List Ann :=
  match range with
  | none => anns
  | some (sStart, sEnd) =>
      anns.filter (fun a => overlapTest a.range.1 a.range.2 sStart sEnd)

/-- The overlap condition the code actually implements, as a single
boolean: `aEnd >= sStart`, and when the query end is given and nonzero
additionally `aStart <= sEnd` (a given end of `0` behaves as omitted). -/
def overlapAmendedTest (a : Ann) (sStart : Int) (sEnd : Option Int) : Bool :=
  decide (a.range.2 ≥ sStart) &&
    (match sEnd with
     | none => true
     | some v => if v == 0 then true else decide (a.range.1 ≤ v))

/-- A run of a text diff: retain, insert of a given length, or removal
of a given length (the specification retain/insert/delete run format). -/
inductive TextRun where
  | retain (n : Int)
  | insert (n : Int)
  | remove (n : Int)
deriving DecidableEq

/-- Modelled from the spec: one step of
`Operator.TextOperation.Range.transform` (the substance-operator
package is not under src). State is `(start, end, position)`; offsets
at or after an insertion point shift right by the inserted length
unless the expansion predicate anchors the boundary; offsets after a
removal shift left, clipped not to cross below the removal start. -/
def transformStep (expandLeft expandRight : Bool) (st : Int × Int × Int)
    (run : TextRun) : Int × Int × Int :=
  let s := st.1
  let e := st.2.1
  let p := st.2.2
  match run with
  | .retain n => (s, e, p + n)
  | .insert n =>
      let s2 := if p < s ∨ (p = s ∧ ¬ expandLeft) then s + n else s
      let e2 := if p < e ∨ (p = e ∧ expandRight) then e + n else e
      (s2, e2, p + n)
  | .remove n =>
      let s2 := if p < s then max p (s - n) else s
      let e2 := if p < e then max p (e - n) else e
      (s2, e2, p)

/-- Modelled from the spec: the full range transform over a diff,
folding `transformStep` over the runs from position zero. -/
def rangeTransformModel (r : Int × Int) (diff : List TextRun)
    (el er : Bool) : Int × Int :=
  let st := diff.foldl (transformStep el er) (r.1, r.2, 0)
  (st.1, st.2.1)

/-- Expansion behaviour entry for one marker type: optional boundary
predicates, as in `Annotator.defaultBehavior.expansion`. -/
structure ExpSpec where
  left : Option (Ann → Bool)
  right : Option (Ann → Bool)

/-- Lookup of `this.expansion[annotation.type]`. -/
def getExpansion (expansion : List (String × ExpSpec)) (t : String) :
    Option ExpSpec :=
  (expansion.find? (fun p => p.1 == t)).map (fun p => p.2)

/-- Embeds `Annotator.isOnNodeStart`: `a.range[0] === 0`. -/
def isOnNodeStart (a : Ann) : Bool := a.range.1 == 0

/-- The `expansion` table of `Annotator.defaultBehavior`: emphasis and
strong expand on the left when the marker sits at the node start. -/
def defaultExpansion : List (String × ExpSpec) :=
  [("emphasis", ⟨some isOnNodeStart, none⟩),
   ("strong", ⟨some isOnNodeStart, none⟩)]

/-- The boundary expansion flags `_transform` computes for a marker:
`expandLeft`/`expandRight` start false and are overwritten by the
predicates of the expansion entry for the marker type, if any. -/
def expansionFlags (expansion : List (String × ExpSpec)) (a : Ann) :
    Bool × Bool :=
  match getExpansion expansion a.type with
  | none => (false, false)
  | some spec =>
      ((match spec.left with | some f => f a | none => false),
       (match spec.right with | some f => f a | none => false))

/-- The transformed range `_transform` computes for a marker under an
update diff, including the expansion flags. -/
def annTransformRange (expansion : List (String × ExpSpec)) (a : Ann)
    (diff : List TextRun) : Int × Int :=
  let fl := expansionFlags expansion a
  rangeTransformModel a.range diff fl.1 fl.2

/-- A property-level operation as seen by `_transform`: an update with
a text diff, a wholesale set, or a delete of the property. -/
inductive PropOp where
  | update (path : List String) (diff : List TextRun)
  | setOp (path : List String)
  | delOp (path : List String)
deriving DecidableEq

/-- The path a property operation addresses. -/
def propOpPath : PropOp → List String
  | .update p _ => p
  | .setOp p => p
  | .delOp p => p

/-- Embeds `_transform` of `annotator.js` (lines 263-293) for one
marker: skip when paths differ; for an update, transform the range
with the expansion flags, delete the marker when the changed range
collapses, otherwise persist the new range; for a set or delete of
the property, delete the marker. -/
def annTransformOp (expansion : List (String × ExpSpec)) (doc : List Ann)
    (op : PropOp) (a : Ann) : List Ann :=
  if a.path ≠ propOpPath op then doc
  else
    match op with
    | .update _ diff =>
        let newRange := annTransformRange expansion a diff
        if newRange ≠ a.range then
          if newRange.1 == newRange.2 then deleteAnn doc a
          else setAnnRange doc a newRange
        else doc
    | .setOp _ => deleteAnn doc a
    | .delOp _ => deleteAnn doc a

/-- An atomic graph operation: create a node with a value, delete a
node, or set the value of a node. -/
inductive AOp where
  | createN (id : String) (val : Int)
  | deleteN (id : String)
  | setN (id : String) (val : Int)
deriving DecidableEq

/-- A recorded operation: either atomic or a compound grouping a list
of atomic operations, as produced by `Operator.ObjectOperation.Compound`. -/
inductive GOp where
  | atom (a : AOp)
  | compound (ops : List AOp)
deriving DecidableEq

/-- Node storage as an association list from id to value. -/
abbrev NodeStore := List (String × Int)

/-- Applying an atomic operation to the node storage. -/
def applyA (st : NodeStore) (a : AOp) : NodeStore :=
  match a with
  | .createN i v => st ++ [(i, v)]
  | .deleteN i => st.filter (fun p => p.1 != i)
  | .setN i v => st.map (fun p => if p.1 == i then (i, v) else p)

/-- Applying a recorded operation: a compound applies its members in
their recorded sequence. -/
def applyG (st : NodeStore) (op : GOp) : NodeStore :=
  match op with
  | .atom a => applyA st a
  | .compound ops => ops.foldl applyA st

/-- A document graph together with the sequence of operations its
listeners have observed (one entry per `apply` call). -/
structure TDoc where
  st : NodeStore
  observed : List GOp
deriving DecidableEq

/-- `apply` on a document: mutate the storage, then broadcast the
operation, which the listeners observe as one more entry. -/
def docApply (d : TDoc) (op : GOp) : TDoc :=
  ⟨applyG d.st op, d.observed ++ [op]⟩

/-- A running simulation: the untouched original, the working copy
built from the original snapshot, and the ordered operation log. -/
structure Sim where
  original : TDoc
  simDoc : TDoc
  ops : List GOp
deriving DecidableEq

/-- Embeds `startSimulation` of the document (part_001 lines 477-524):
the simulation document is a copy of the original made from its
snapshot, with a fresh (empty) operation log. -/
def startSimulation (d : TDoc) : Sim :=
  ⟨d, ⟨d.st, []⟩, []⟩

/-- Embeds the overridden `simulation.apply`: the operation is pushed
onto the log and applied to the simulation copy only. -/
def simApply (s : Sim) (op : GOp) : Sim :=
  ⟨s.original, docApply s.simDoc op, s.ops ++ [op]⟩

/-- Embeds the flattening loop of `simulation.save`: non-compound
entries are kept, a compound entry contributes its members in place. -/
def flattenOps : List GOp → List AOp
  | [] => []
  | .atom a :: rest => a :: flattenOps rest
  | .compound cs :: rest => cs ++ flattenOps rest

/-- Embeds `simulation.save` (part_001 lines 493-520) and the
equivalent `save` of `document.js` (lines 262-283): flatten the log;
when nothing was recorded return with no effect; otherwise wrap the
flat list in one compound and apply it to the original exactly once. -/
def simSave (s : Sim) : TDoc :=
  let fo := flattenOps s.ops
  if fo.length == 0 then s.original
  else docApply s.original (.compound fo)

/-- Discarding a simulation: the shadow copy is dropped, the original
is simply kept. -/
def simDiscard (s : Sim) : TDoc := s.original

/-- Runs a whole list of operations on a freshly started simulation. -/
def runSim (d : TDoc) (l : List GOp) : Sim :=
  l.foldl simApply (startSimulation d)

/-- An operation listener with an id, a priority, and a flag saying
whether its `onOperationApplied` throws. -/
structure OListener where
  lid : String
  priority : Int
  throws : Bool
deriving DecidableEq

/-- A single listener call: throwing listeners yield an error. -/
def callOnOp (l : OListener) : Except String Unit :=
  if l.throws then Except.error l.lid else Except.ok ()

/-- Embeds the broadcast loop of `onOperationApplied` (part_001 lines
200-215): every listener is called in order inside a try/catch; a
throwing listener is recorded as failed instead of propagating.
Returns the invocation order and the failed listeners. -/
def broadcastStep (acc : List String × List String) (l : OListener) :
    List String × List String :=
  match callOnOp l with
  | Except.ok _ => (acc.1 ++ [l.lid], acc.2)
  | Except.error _ => (acc.1 ++ [l.lid], acc.2 ++ [l.lid])

/-- The whole broadcast loop, starting from empty accumulators. -/
def broadcastOp (ls : List OListener) : List String × List String :=
  ls.foldl broadcastStep ([], [])

/-- The observable outcome of applying one operation with listeners
registered: the resulting storage, the listeners invoked in order, and
the listeners whose `reset` is called afterwards. -/
structure ApplyResult where
  st : NodeStore
  invoked : List String
  resets : List String
deriving DecidableEq

/-- Embeds the apply-then-broadcast path: the mutation is performed
first, then every listener runs; after the loop `reset()` is called on
each failed listener in order. -/
def applyWithListeners (st : NodeStore) (op : AOp) (ls : List OListener) :
    ApplyResult :=
  let st2 := applyA st op
  let r := broadcastOp ls
  ⟨st2, r.1, r.2⟩

/-- Stable insertion used to model the numeric-comparator sort of
`addOperationListener`: a new listener goes after existing listeners
of the same priority. -/
def insertListener (x : OListener) : List OListener → List OListener
  | [] => [x]
  | y :: ys => if x.priority < y.priority then x :: y :: ys
               else y :: insertListener x ys

/-- Sorting the listener list ascending by priority, stably. -/
def sortListeners (ls : List OListener) : List OListener :=
  ls.foldl (fun acc x => insertListener x acc) []

/-- Embeds `addOperationListener` (part_001 lines 217-223): a missing
priority defaults to 10, the listener is pushed and the list re-sorted
ascending by priority. -/
def addOperationListener (ls : List OListener) (l : OListener)
    (priority : Option Int) : List OListener :=
  sortListeners (ls ++ [{ l with priority := priority.getD 10 }])

/-- The copy-on-write graph of `document.js`: either a base node store
or an overlay over a parent graph. -/
inductive CGraph where
  | base (nodes : NodeStore)
  | cow (overlay : NodeStore) (parent : CGraph)
deriving DecidableEq

/-- A document over a copy-on-write graph, with the `transacting` flag
`startTransaction` sets on the shadow it returns. -/
structure CDoc where
  graph : CGraph
  transacting : Bool
deriving DecidableEq

/-- Embeds `startTransaction` of `document.js` (lines 247-260): a
shadow document with a fresh copy-on-write graph over the current one
is returned unconditionally; there is no check of any kind. -/
def startTransactionCOW (d : CDoc) : Except String CDoc :=
  Except.ok ⟨CGraph.cow [] d.graph, true⟩

/-- The flag-based document of part_001 with its `isTransacting` bit. -/
structure FDoc where
  isTransacting : Bool
  st : NodeStore
deriving DecidableEq

/-- Embeds `startTransaction` of the part_001 document (lines 166-173):
a second transaction on a transacting document throws. -/
def startTransactionFlag (d : FDoc) : Except String FDoc :=
  if d.isTransacting then
    Except.error "Nested transactions are not supported yet."
  else
    Except.ok { d with isTransacting := true }

/-- A typed node record: id, type name and named properties. -/
structure DNode where
  id : String
  type : String
  props : List (String × Int)
deriving DecidableEq

/-- A document graph for serialisation: schema identification plus the
node table. -/
structure DGraph where
  schemaName : String
  schemaVersion : Nat
  nodes : List DNode
deriving DecidableEq

/-- The snapshot produced by `toJSON`: schema name and version plus
the node mapping. -/
structure Snapshot where
  schemaName : String
  schemaVersion : Nat
  nodes : List DNode
deriving DecidableEq

/-- Embeds `toJSON` (part_001 lines 193-198): the snapshot carries
`[schema.name, schema.version]` and the node table. -/
def toJSONModel (g : DGraph) : Snapshot :=
  ⟨g.schemaName, g.schemaVersion, g.nodes⟩

/-- Modelled from the spec: `fromSnapshot(data)` passes the snapshot
as the seed of a new graph (the seeding itself lives in the
substance-data package, which is not under src); the spec states the
seed is the node mapping the graph is instantiated from. -/
def fromSnapshotModel (s : Snapshot) : DGraph :=
  ⟨s.schemaName, s.schemaVersion, s.nodes⟩

/-- Lookup in the group table `this.groups`, `none` when the type has
no configured group (JS `undefined`). -/
def lookupGroup (groups : List (String × String)) (t : String) :
    Option String :=
  (groups.find? (fun p => p.1 == t)).map (fun p => p.2)

/-- Embeds `isExclusive` of `annotator.js` (lines 421-423):
`groups[type1] === groups[type2]`, where two absent lookups compare as
equal (undefined === undefined). -/
def isExclusive (groups : List (String × String)) (t1 t2 : String) : Bool :=
  lookupGroup groups t1 == lookupGroup groups t2

/-- The exclusivity relation exactly as the claim words it: true if
and only if both types map to the same configured group; an absent
type maps to no group and is exclusive with nothing. -/
def isExclusiveSpec (groups : List (String × String)) (t1 t2 : String) :
    Bool :=
  match lookupGroup groups t1, lookupGroup groups t2 with
  | some g1, some g2 => g1 == g2
  | _, _ => false

/-- The `groups` table of `Annotator.defaultBehavior`. -/
def defaultGroups : List (String × String) :=
  [("emphasis", "style"), ("strong", "style"), ("link", "style"),
   ("question", "marker"), ("idea", "marker"), ("error", "marker")]

/-- Lexicographic comparison of character lists by code point, the
order JS string comparison uses for ASCII data. -/
def charsLe : List Char → List Char → Bool
  | [], _ => true
  | _ :: _, [] => false
  | c :: cs, d :: ds =>
      if c.toNat < d.toNat then true
      else if d.toNat < c.toNat then false
      else charsLe cs ds

/-- String comparison used by the default JS sort. -/
def strLeBool (a b : String) : Bool := charsLe a.toList b.toList

/-- Insertion step for the default JS sort applied to numbers: the
numbers are compared by their decimal string representations. -/
def jsSortInsert (x : Nat) : List Nat → List Nat
  | [] => [x]
  | y :: ys => if strLeBool (Nat.repr x) (Nat.repr y) then x :: y :: ys
               else y :: jsSortInsert x ys

/-- Embeds the comparator-free `indexes.sort()` of `hide`: JS sorts
the numeric indexes as strings, lexicographically. -/
def jsDefaultSort (l : List Nat) : List Nat :=
  l.foldr jsSortInsert []

/-- Embeds the `_.uniq` call of `hide`: first occurrences are kept. -/
def uniqNats (l : List Nat) : List Nat :=
  l.foldl (fun acc x => if acc.contains x then acc else acc ++ [x]) []

/-- Modelled from the spec: applying one
`Operator.ArrayOperation.Delete(index, value)` (substance-operator is
not under src). Operations carry the old value they replace so they
stay invertible; a delete whose position does not hold that value is
an invalid state. -/
def arrayDeleteAt (l : List String) (i : Nat) (v : String) :
    Except String (List String) :=
  match l.get? i with
  | some x => if x == v then Except.ok (l.eraseIdx i)
              else Except.error "Invalid state"
  | none => Except.error "Invalid state"

/-- Applying a compound of array deletes in sequence. -/
def applyDeletes (l : List String) (ops : List (Nat × String)) :
    Except String (List String) :=
  ops.foldlM (fun acc op => arrayDeleteAt acc op.1 op.2) l

/-- Embeds `hide` of `document.js` (lines 160-189) acting on the nodes
sequence of a container: collect the index of each given id
(`indexOf`, skipping missing ones), return with no operation when none
was found, then `sort().reverse()`, `_.uniq`, build one delete per
index against the original sequence, and apply them as one compound.
`Except.ok none` is the no-operation return. -/
def hideModel (view : List String) (ids : List String) :
    Except String (Option (List String)) :=
  let idxs := ids.foldl
    (fun acc n =>
      match view.findIdx? (fun x => x == n) with
      | some i => acc ++ [i]
      | none => acc) []
  if idxs.length == 0 then Except.ok none
  else
    let sorted := uniqNats (jsDefaultSort idxs).reverse
    let ops := sorted.map (fun i => (i, view.getD i ""))
    (applyDeletes view ops).map (fun l => some l)

/-- Embeds `annotation.path = _.clone(annotation.path);
annotation.path[0] = newNodeId`: index-zero assignment on the cloned
path (assignment on an empty array creates the element). -/
def pasteHeadSet (p : List String) (nid : String) : List String :=
  match p with
  | [] => [nid]
  | _ :: t => nid :: t

/-- Embeds the per-element body of `paste` (annotator.js lines
302-316): rewrite the path head when a target node is given, shift
both range ends in place when an offset is given. -/
def pasteOne (a : Ann) (newNodeId : Option String) (offset : Option Int) :
    Ann :=
  let a1 := match newNodeId with
            | some nid => { a with path := pasteHeadSet a.path nid }
            | none => a
  match offset with
  | some off => { a1 with range := (a1.range.1 + off, a1.range.2 + off) }
  | none => a1

/-- Embeds the `paste` loop: each passed marker is mutated by
`pasteOne` and that same mutated record is created in the document.
Returns the state of the list of the caller after the call together with
the document node list after the creations. -/
def pasteRun : List Ann → Option String → Option Int → List Ann →
    List Ann × List Ann
  | [], _, _, doc => ([], doc)
  | a :: rest, nid, off, doc =>
      let a2 := pasteOne a nid off
      let r := pasteRun rest nid off (doc ++ [a2])
      (a2 :: r.1, r.2)


/-- Successful-result test for `Except`, used to state that a call does
not fail. -/
def exceptIsOk {α : Type} (e : Except String α) : Bool :=
  match e with
  | Except.ok _ => true
  | Except.error _ => false

/-- Helper: after deleting by id, no record with that id can be found. -/
theorem find_id_of_delete (doc : List Ann) (i : String) :
    (doc.filter (fun x => x.id != i)).find? (fun x => x.id == i) = none := by
  induction doc with
  | nil => rfl
  | cons x xs ih =>
      by_cases h : x.id = i
      · simp [List.filter_cons, h, ih]
      · simp [List.filter_cons, h, List.find?_cons, ih]

/-- Helper: the broadcast loop invokes every listener in order and
collects exactly the throwing ones, whatever the accumulator. -/
theorem broadcast_loop_spec (ls : List OListener)
    (acc : List String × List String) :
    ls.foldl broadcastStep acc =
      (acc.1 ++ ls.map OListener.lid,
       acc.2 ++ (ls.filter OListener.throws).map OListener.lid) := by
  induction ls generalizing acc with
  | nil => simp
  | cons l rest ih =>
      by_cases h : l.throws
      · simp [List.foldl_cons, broadcastStep, callOnOp, h, ih]
      · simp [List.foldl_cons, broadcastStep, callOnOp, h, ih]

/-- Helper: closed form of `broadcastOp`. -/
theorem broadcastOp_spec (ls : List OListener) :
    broadcastOp ls =
      (ls.map OListener.lid,
       (ls.filter OListener.throws).map OListener.lid) := by
  simpa [broadcastOp] using broadcast_loop_spec ls ([], [])

/-- Helper: folding `simApply` never touches the original, appends the
operations to the log in order, and applies them to the shadow. -/
theorem foldl_simApply_spec (l : List GOp) (s : Sim) :
    (l.foldl simApply s).original = s.original ∧
    (l.foldl simApply s).ops = s.ops ++ l ∧
    (l.foldl simApply s).simDoc.st = l.foldl applyG s.simDoc.st := by
  induction l generalizing s with
  | nil => simp
  | cons op rest ih =>
      have h := ih (simApply s op)
      refine ⟨?_, ?_, ?_⟩
      · simpa [simApply] using h.1
      · rw [List.foldl_cons, h.2.1]
        simp [simApply]
      · have := h.2.2
        simpa [simApply, docApply] using this

/-- Helper: applying the flattened atomic list equals applying the
recorded operations one by one. -/
theorem flatten_foldl (l : List GOp) (st : NodeStore) :
    (flattenOps l).foldl applyA st = l.foldl applyG st := by
  induction l generalizing st with
  | nil => rfl
  | cons op rest ih =>
      cases op with
      | atom a => simp [flattenOps, applyG, ih]
      | compound cs => simp [flattenOps, List.foldl_append, applyG, ih]

/-- Helper: the first component of `pasteRun` maps `pasteOne` over the
passed list. -/
theorem pasteRun_fst (anns : List Ann) (nid : Option String)
    (off : Option Int) (doc : List Ann) :
    (pasteRun anns nid off doc).1 =
      anns.map (fun a => pasteOne a nid off) := by
  induction anns generalizing doc with
  | nil => rfl
  | cons a rest ih => simp [pasteRun, ih]

/-- Helper: the second component of `pasteRun` appends exactly the
mutated records to the document. -/
theorem pasteRun_snd (anns : List Ann) (nid : Option String)
    (off : Option Int) (doc : List Ann) :
    (pasteRun anns nid off doc).2 =
      doc ++ anns.map (fun a => pasteOne a nid off) := by
  induction anns generalizing doc with
  | nil => simp [pasteRun]
  | cons a rest ih => simp [pasteRun, ih]

/-- C1: `_truncate` implements exactly the specified case analysis on a
marker range `[s1,e1]` against an action range `[s2,e2]` — fully
covered deletes; head overlap updates to `[e2,e1]`; tail overlap
updates to `[s1,s2]`; middle overlap shrinks to `[s1,s2]` and creates
a same-type same-path marker over `[e2,e1]` when the type is
splittable, otherwise deletes. On the marker `[2,8]` with action range
`[4,6]`, a splittable type leaves exactly the two markers `[2,4]` and
`[6,8]`, and a non-splittable type leaves none. -/
theorem c1_truncate_cases (split : List String) (doc : List Ann) (a : Ann)
    (r : Int × Int) (fid : String) :
    truncateAnn split doc a r fid = truncateSpecModel split doc a r fid ∧
    truncateAnn defaultSplit [⟨"a1", "strong", ["p1", "content"], (2, 8)⟩]
      ⟨"a1", "strong", ["p1", "content"], (2, 8)⟩ (4, 6) "f1" =
      [⟨"a1", "strong", ["p1", "content"], (2, 4)⟩,
       ⟨"f1", "strong", ["p1", "content"], (6, 8)⟩] ∧
    truncateAnn defaultSplit [⟨"a2", "idea", ["p1", "content"], (2, 8)⟩]
      ⟨"a2", "idea", ["p1", "content"], (2, 8)⟩ (4, 6) "f1" = [] :=
  ⟨rfl, by decide, by decide⟩

/-- C2: a simulation never touches the original while running or when
discarded; its log records the operations in order; saving flattens the
log, wraps it in one compound and applies it to the original exactly
once, so the listeners of the original observe exactly one additional
operation (none when nothing was recorded); after saving, the original
state equals the simulated state, so all recorded operations are
reflected; an empty transaction commits as a no-op. -/
theorem c2_transaction_atomicity (d : TDoc) (l : List GOp) :
    (runSim d l).original = d ∧
    simDiscard (runSim d l) = d ∧
    (runSim d l).ops = l ∧
    (simSave (runSim d l)).observed =
      d.observed ++
        (if flattenOps l = [] then [] else [GOp.compound (flattenOps l)]) ∧
    (simSave (runSim d l)).st = (runSim d l).simDoc.st ∧
    simSave (runSim d []) = d := by
  have h := foldl_simApply_spec l (startSimulation d)
  have horig : (runSim d l).original = d := by
    simpa [runSim, startSimulation] using h.1
  have hops : (runSim d l).ops = l := by
    simpa [runSim, startSimulation] using h.2.1
  have hst : (runSim d l).simDoc.st = l.foldl applyG d.st := by
    simpa [runSim, startSimulation] using h.2.2
  refine ⟨horig, by simpa [simDiscard] using horig, hops, ?_, ?_, by rfl⟩
  · by_cases hf : flattenOps l = []
    · simp [simSave, hops, hf, horig]
    · have : (flattenOps l).length ≠ 0 := by
        simpa [List.length_eq_zero] using hf
      simp [simSave, hops, hf, this, docApply, horig]
  · by_cases hf : flattenOps l = []
    · have hg : l.foldl applyG d.st = d.st := by
        rw [← flatten_foldl, hf]
        rfl
      simp [simSave, hops, hf, horig, hst, hg]
    · have : (flattenOps l).length ≠ 0 := by
        simpa [List.length_eq_zero] using hf
      simp [simSave, hops, this, docApply, horig, hst, applyG,
        flatten_foldl]

/-- C3 counterexample: for the marker with range `[1,5]` and the query
range `[0,0]` the filter keeps the marker although the claimed
condition requires `aStart <= sEnd`, which fails (`1 <= 0` is false):
the code tests JS truthiness of the end, so a given end of `0` is
treated as omitted and the start bound is never checked. -/
theorem c3_overlap_counterexample :
    ¬ (((⟨"a1", "strong", ["p1", "content"], (1, 5)⟩ : Ann) ∈
          filterByNodeAndRange
            [⟨"a1", "strong", ["p1", "content"], (1, 5)⟩]
            (some (0, some 0))) ↔
        ((5 : Int) ≥ 0 ∧ (1 : Int) ≤ 0)) := by decide

/-- C3 amended: a marker is kept by the range filter if and only if it
was among the indexed markers, its end is at or after the query start,
and either the query end is absent or `0` (both falsy in JS, hence
treated as omitted) or the marker start is at or before the query end;
both bounds are inclusive. The range `[2,5]` overlaps the query `[5,7]`
and does not overlap the query `[6,7]`. -/
theorem c3_overlap_filter (anns : List Ann) (a : Ann) (sStart : Int)
    (sEnd : Option Int) :
    (a ∈ filterByNodeAndRange anns (some (sStart, sEnd)) ↔
      a ∈ anns ∧ overlapAmendedTest a sStart sEnd = true) ∧
    overlapTest 2 5 5 (some 7) = true ∧
    overlapTest 2 5 6 (some 7) = false := by
  refine ⟨?_, by decide, by decide⟩
  have hfun : overlapTest a.range.1 a.range.2 sStart sEnd =
      overlapAmendedTest a sStart sEnd := by
    cases sEnd with
    | none => simp [overlapTest, overlapAmendedTest]
    | some v =>
        by_cases hv : v = 0
        · simp [overlapTest, overlapAmendedTest, hv]
        · simp [overlapTest, overlapAmendedTest, hv]
  simp [filterByNodeAndRange, List.mem_filter, hfun]

/-- C4: whenever a co-transformation of an update operation against a
marker on the same path produces a collapsed range (equal start and
end), the marker is deleted from the graph: no record with its id can
be found afterwards. The marker is assumed non-collapsed beforehand,
which is the stated invariant for persisted markers. -/
theorem c4_collapse_deleted (expansion : List (String × ExpSpec))
    (doc : List Ann) (a : Ann) (diff : List TextRun)
    (h1 : a.range.1 < a.range.2)
    (h2 : (annTransformRange expansion a diff).1 =
          (annTransformRange expansion a diff).2) :
    (annTransformOp expansion doc (PropOp.update a.path diff) a).find?
      (fun x => x.id == a.id) = none := by
  have hne : annTransformRange expansion a diff ≠ a.range := by
    intro hEq
    rw [hEq] at h2
    exact absurd h2 (ne_of_lt h1)
  have hres : annTransformOp expansion doc (PropOp.update a.path diff) a =
      deleteAnn doc a := by
    simp [annTransformOp, propOpPath, hne, h2]
  rw [hres]
  exact find_id_of_delete doc a.id

/-- C4 witness: the strong marker `[2,4]` under a diff removing exactly
its covered text collapses to `[2,2]` and is removed from the graph. -/
theorem c4_collapse_deleted_witness :
    (annTransformOp defaultExpansion
        [⟨"a4", "strong", ["p1", "content"], (2, 4)⟩]
        (PropOp.update ["p1", "content"]
          [TextRun.retain 2, TextRun.remove 2])
        ⟨"a4", "strong", ["p1", "content"], (2, 4)⟩).find?
      (fun x => x.id == "a4") = none :=
  c4_collapse_deleted defaultExpansion
    [⟨"a4", "strong", ["p1", "content"], (2, 4)⟩]
    ⟨"a4", "strong", ["p1", "content"], (2, 4)⟩
    [TextRun.retain 2, TextRun.remove 2]
    (by decide) (by decide)

/-- C5: for every applied operation, the mutation is exactly the plain
application of the operation (a throwing listener never rolls it
back); every registered listener, including lower-priority ones after
a throwing one, is invoked exactly once in order; the throw is caught
inside the loop; and reset is called afterwards exactly on the failed
listeners, in order. Concretely, a priority-1 thrower followed by a
priority-20 listener: both run, only the thrower is reset, the
mutation stands. -/
theorem c5_listener_isolation (st : NodeStore) (op : AOp)
    (ls : List OListener) :
    (applyWithListeners st op ls).st = applyA st op ∧
    (applyWithListeners st op ls).invoked = ls.map OListener.lid ∧
    (applyWithListeners st op ls).resets =
      (ls.filter OListener.throws).map OListener.lid ∧
    applyWithListeners [] (AOp.createN "x" 1)
        (addOperationListener
          (addOperationListener [] ⟨"snd", 0, false⟩ (some 20))
          ⟨"fst", 0, true⟩ (some 1)) =
      ⟨[("x", 1)], ["fst", "snd"], ["fst"]⟩ := by
  refine ⟨rfl, ?_, ?_, by decide⟩
  · simp [applyWithListeners, broadcastOp_spec]
  · simp [applyWithListeners, broadcastOp_spec]

/-- C6 counterexample: in the copy-on-write document, starting a
transaction on a document that is itself an open transaction shadow
(its transacting flag is set) succeeds and returns another shadow; no
error of any kind is raised, so starting a second scope does not fail. -/
theorem c6_nested_counterexample :
    startTransactionCOW ⟨CGraph.base [], false⟩ =
      Except.ok ⟨CGraph.cow [] (CGraph.base []), true⟩ ∧
    (CDoc.mk (CGraph.cow [] (CGraph.base [])) true).transacting = true ∧
    exceptIsOk (startTransactionCOW
      ⟨CGraph.cow [] (CGraph.base []), true⟩) = true := by
  exact ⟨rfl, rfl, rfl⟩

/-- C6 amended: only the flag-based document of part_001 rejects
nesting, and it does so with a generic error whose message is that
nested transactions are not supported (not a dedicated
NestedTransactionError type): when a transaction is open, starting
another fails with that error; when none is open, starting succeeds
and immediately starting again fails, so at most one scope is open at
a time; the copy-on-write startTransaction of document.js performs no
check at all and always succeeds. -/
theorem c6_nested_amended (d : FDoc) (c : CDoc)
    (h : d.isTransacting = true) :
    startTransactionFlag d =
      Except.error "Nested transactions are not supported yet." ∧
    exceptIsOk (startTransactionFlag { d with isTransacting := false }) =
      true ∧
    (startTransactionFlag { d with isTransacting := false }).bind
      startTransactionFlag =
      Except.error "Nested transactions are not supported yet." ∧
    exceptIsOk (startTransactionCOW c) = true := by
  refine ⟨?_, ?_, ?_, rfl⟩
  · simp [startTransactionFlag, h]
  · simp [startTransactionFlag, exceptIsOk]
  · simp [startTransactionFlag, Except.bind]

/-- C6 witness: the amended statement at a concrete transacting
document. -/
theorem c6_nested_amended_witness :
    startTransactionFlag ⟨true, []⟩ =
      Except.error "Nested transactions are not supported yet." ∧
    exceptIsOk (startTransactionFlag
      { FDoc.mk true [] with isTransacting := false }) = true ∧
    (startTransactionFlag
      { FDoc.mk true [] with isTransacting := false }).bind
      startTransactionFlag =
      Except.error "Nested transactions are not supported yet." ∧
    exceptIsOk (startTransactionCOW ⟨CGraph.base [], false⟩) = true :=
  c6_nested_amended ⟨true, []⟩ ⟨CGraph.base [], false⟩ rfl

/-- C7: a graph serialised by toJSON and re-seeded by fromSnapshot is
reproduced exactly: the same graph, hence the same node ids, the same
type assignment and the same property values for every node. -/
theorem c7_round_trip (g : DGraph) :
    fromSnapshotModel (toJSONModel g) = g ∧
    (fromSnapshotModel (toJSONModel g)).nodes.map DNode.id =
      g.nodes.map DNode.id ∧
    (fromSnapshotModel (toJSONModel g)).nodes.map DNode.type =
      g.nodes.map DNode.type ∧
    (fromSnapshotModel (toJSONModel g)).nodes.map DNode.props =
      g.nodes.map DNode.props :=
  ⟨rfl, rfl, rfl, rfl⟩

/-- C8 counterexample: with the default behaviour table, the types
code and comment are both absent from the group mapping, yet
isExclusive returns true for them (undefined === undefined in JS), so
the claim that absent types are never exclusive is false on the code. -/
theorem c8_exclusive_counterexample :
    isExclusive defaultGroups "code" "comment" = true ∧
    lookupGroup defaultGroups "code" = none ∧
    lookupGroup defaultGroups "comment" = none ∧
    isExclusiveSpec defaultGroups "code" "comment" = false ∧
    ¬ (isExclusive defaultGroups "code" "comment" =
        isExclusiveSpec defaultGroups "code" "comment") := by
  refine ⟨rfl, rfl, rfl, rfl, by decide⟩

/-- C8 amended: isExclusive returns true exactly when the two group
lookups are equal as optional values — both types map to the same
configured group, or both are absent from the mapping; a type with a
group is never exclusive with an absent type. With the default groups,
strong and emphasis are exclusive, strong and idea are not, and strong
is not exclusive with an unmapped type. -/
theorem c8_exclusive_amended (groups : List (String × String))
    (t1 t2 : String) :
    (isExclusive groups t1 t2 = true ↔
      lookupGroup groups t1 = lookupGroup groups t2) ∧
    isExclusive defaultGroups "strong" "emphasis" = true ∧
    isExclusive defaultGroups "strong" "idea" = false ∧
    isExclusive defaultGroups "strong" "unmapped" = false := by
  refine ⟨?_, rfl, rfl, rfl⟩
  simp [isExclusive]

/-- C9: the hide bug at multi-digit positions. The comparator-free JS
sort orders the collected indexes lexicographically as strings, so the
indexes 2 and 10 sort to the deletion order 2 then 10; after position
2 is removed from an 11-element container the second delete addresses
position 10 of a 10-element sequence and the compound fails instead of
removing exactly the two given ids (with the evidently intended
descending numeric order both would be removed). On single-digit
positions the string order coincides with the numeric order and hide
removes exactly the occurrences, and with no occurrence at all no
operation is applied. -/
theorem c9_hide_lex_sort_failure :
    hideModel ["n0", "n1", "n2", "n3", "n4", "n5", "n6", "n7", "n8",
               "n9", "n10"] ["n2", "n10"] =
      Except.error "Invalid state" ∧
    jsDefaultSort [2, 10] = [10, 2] ∧
    hideModel ["n0", "n1", "n2", "n3"] ["n3", "n1"] =
      Except.ok (some ["n0", "n2"]) ∧
    hideModel ["n0", "n1", "n2"] ["zz"] = Except.ok none := by
  refine ⟨by rfl, by decide, by rfl, by rfl⟩

/-- C10: paste mutates its input. With a target node id and an offset
given, the list the caller passed ends up holding, for every element,
a record whose path is a fresh copy headed by the new node id and
whose own range has both ends incremented by the offset in place; the
document receives exactly these same mutated records, appended in
order; and pasting the returned list again with the same offset shifts
the ranges a second time, so the copied markers cannot be re-pasted
with the original offsets. Without a target id only the ranges are
shifted. -/
theorem c10_paste_mutates (anns : List Ann) (nid : String) (off : Int)
    (doc : List Ann) :
    (pasteRun anns (some nid) (some off) doc).1 =
      anns.map (fun a =>
        { a with path := pasteHeadSet a.path nid,
                 range := (a.range.1 + off, a.range.2 + off) }) ∧
    (pasteRun anns (some nid) (some off) doc).2 =
      doc ++ (pasteRun anns (some nid) (some off) doc).1 ∧
    (pasteRun anns none (some off) doc).1 =
      anns.map (fun a =>
        { a with range := (a.range.1 + off, a.range.2 + off) }) ∧
    ((pasteRun (pasteRun anns (some nid) (some off) doc).1
        (some nid) (some off) doc).1).map Ann.range =
      anns.map (fun a => (a.range.1 + off + off, a.range.2 + off + off)) := by
  refine ⟨?_, ?_, ?_, ?_⟩
  · rw [pasteRun_fst]
    rfl
  · rw [pasteRun_fst, pasteRun_snd]
  · rw [pasteRun_fst]
    rfl
  · rw [pasteRun_fst, pasteRun_fst, List.map_map, List.map_map]
    rfl
